import Mathlib

/-!
Shallow embedding of the EliteDentaLAI client-side service modules
(emergency triage, recall scheduling, waitlist fill, PHI redaction,
voice-session retry policy) together with theorems checking the
natural-language specification against the code.

Strings are modelled as Lean `String`s; the JavaScript string
operations used by the code (`toLowerCase`, `trim`, `includes`) are
re-implemented over the underlying character lists so that all
definitions evaluate inside the kernel.  JavaScript `Date` values are
modelled as epoch milliseconds (`Int`) where only `getTime` is used,
and as calendar records where month arithmetic matters.
-/

/-! ## String primitives (models of the JS string operations used) -/

/-- Model of `String.prototype.toLowerCase` (ASCII range, which covers
every keyword and pattern in the repository). -/
def toLowerStr (s : String) : String := ⟨s.data.map Char.toLower⟩

/-- Boolean test: `pre` is a prefix of `l`. -/
def isPrefixOfB : List Char → List Char → Bool
  | [], _ => true
  | _ :: _, [] => false
  | a :: as, b :: bs => a == b && isPrefixOfB as bs

/-- Boolean test: `needle` occurs as a contiguous substring of `hay`
(model of `String.prototype.includes`). -/
def containsSubL (needle : List Char) : List Char → Bool
  | [] => isPrefixOfB needle []
  | b :: bs => isPrefixOfB needle (b :: bs) || containsSubL needle bs

/-- `String` version of `containsSubL`. -/
def containsSub (needle hay : String) : Bool := containsSubL needle.data hay.data

/-- Model of `String.prototype.trim`: strip whitespace from both ends. -/
def trimStr (s : String) : String :=
  ⟨((s.data.dropWhile Char.isWhitespace).reverse.dropWhile Char.isWhitespace).reverse⟩

/-! ## EmergencyTriage (src/src/services/emergencyTriage.ts) -/

namespace EmergencyTriage

/-- Result record of `EmergencyTriage.analyzeEmergency`. -/
structure TriageResult where
  isEmergency : Bool
  painLevel : Nat
  symptoms : List String
  urgencyScore : Nat
deriving DecidableEq

/-- `EmergencyTriage.emergencyKeywords` (the private static field). -/
def emergencyKeywords : List String :=
  ["pain", "broken", "emergency", "swollen", "bleeding",
   "urgent", "hurt", "ache", "throbbing", "severe",
   "unbearable", "excruciating", "can\x27t sleep", "can\x27t eat"]

/-- `EmergencyTriage.painLevelKeywords.severe`. -/
def severeKeywords : List String :=
  ["unbearable", "excruciating", "worst", "can\x27t", "crying"]

/-- `EmergencyTriage.painLevelKeywords.moderate`. -/
def moderateKeywords : List String :=
  ["bad", "hurts", "painful", "aching", "throbbing"]

/-- `EmergencyTriage.painLevelKeywords.mild`. -/
def mildKeywords : List String :=
  ["slight", "little", "minor", "uncomfortable"]

/-- Model of `EmergencyTriage.analyzeEmergency`. -/
def analyzeEmergency (utterance : String) : TriageResult :=
  let lowerUtterance := toLowerStr utterance
  let foundKeywords := emergencyKeywords.filter (fun k => containsSub k lowerUtterance)
  if foundKeywords.length = 0 then
    { isEmergency := false, painLevel := 0, symptoms := [], urgencyScore := 0 }
  else
    let painLevel : Nat :=
      if severeKeywords.any (fun w => containsSub w lowerUtterance) then 9
      else if moderateKeywords.any (fun w => containsSub w lowerUtterance) then 6
      else if mildKeywords.any (fun w => containsSub w lowerUtterance) then 3
      else 5
    let base := foundKeywords.length * 15 + painLevel * 8
    let boosted :=
      if containsSub "since last night" lowerUtterance || containsSub "all night" lowerUtterance
      then base + 20 else base
    { isEmergency := true, painLevel := painLevel, symptoms := foundKeywords,
      urgencyScore := min boosted 100 }

end EmergencyTriage

/-- No matched keyword forces the all-zero result record. -/
lemma analyzeEmergency_of_no_keyword (u : String)
    (h : (EmergencyTriage.emergencyKeywords.filter
      (fun k => containsSub k (toLowerStr u))).length = 0) :
    EmergencyTriage.analyzeEmergency u =
      { isEmergency := false, painLevel := 0, symptoms := [], urgencyScore := 0 } := by
  unfold EmergencyTriage.analyzeEmergency
  simp only [h, if_true]

/-- A matched keyword forces `isEmergency = true`. -/
lemma analyzeEmergency_of_keyword (u : String)
    (h : ¬ (EmergencyTriage.emergencyKeywords.filter
      (fun k => containsSub k (toLowerStr u))).length = 0) :
    (EmergencyTriage.analyzeEmergency u).isEmergency = true := by
  unfold EmergencyTriage.analyzeEmergency
  simp only [h, if_false]

/-- C1: `analyzeEmergency` reports an emergency exactly when the lowercased
utterance contains a configured emergency keyword as a substring, and when no
keyword is contained it returns pain level 0, urgency 0 and no symptoms. -/
theorem c1_analyzeEmergency_keyword_iff (u : String) :
    ((EmergencyTriage.analyzeEmergency u).isEmergency = true ↔
      ∃ k ∈ EmergencyTriage.emergencyKeywords, containsSub k (toLowerStr u) = true) ∧
    ((∀ k ∈ EmergencyTriage.emergencyKeywords, containsSub k (toLowerStr u) = false) →
      EmergencyTriage.analyzeEmergency u =
        { isEmergency := false, painLevel := 0, symptoms := [], urgencyScore := 0 }) := by
  constructor
  · constructor
    · intro he
      by_contra hne
      have h0 : (EmergencyTriage.emergencyKeywords.filter
          (fun k => containsSub k (toLowerStr u))).length = 0 := by
        rw [List.length_eq_zero, List.filter_eq_nil_iff]
        intro k hk hc
        exact hne ⟨k, hk, hc⟩
      rw [analyzeEmergency_of_no_keyword u h0] at he
      exact Bool.false_ne_true he
    · intro hex
      apply analyzeEmergency_of_keyword
      rw [List.length_eq_zero, List.filter_eq_nil_iff]
      intro hall
      obtain ⟨k, hk, hc⟩ := hex
      exact hall k hk hc
  · intro h
    apply analyzeEmergency_of_no_keyword
    rw [List.length_eq_zero, List.filter_eq_nil_iff]
    intro k hk
    simp [h k hk]

/-- In the emergency branch the pain level is the severe/moderate/mild
if-chain with default 5. -/
lemma analyzeEmergency_painLevel_eq (u : String)
    (h : ¬ (EmergencyTriage.emergencyKeywords.filter
      (fun k => containsSub k (toLowerStr u))).length = 0) :
    (EmergencyTriage.analyzeEmergency u).painLevel =
      (if EmergencyTriage.severeKeywords.any (fun w => containsSub w (toLowerStr u)) then 9
       else if EmergencyTriage.moderateKeywords.any (fun w => containsSub w (toLowerStr u)) then 6
       else if EmergencyTriage.mildKeywords.any (fun w => containsSub w (toLowerStr u)) then 3
       else 5) := by
  unfold EmergencyTriage.analyzeEmergency
  simp only [h, if_false]

/-- C4 (counterexample): the utterance "swollen" is classified as an
emergency but its pain level is the default 5, not one of 3, 6, 9. -/
theorem c4_painLevel_counterexample :
    (EmergencyTriage.analyzeEmergency "swollen").isEmergency = true ∧
    ¬ ((EmergencyTriage.analyzeEmergency "swollen").painLevel = 3 ∨
       (EmergencyTriage.analyzeEmergency "swollen").painLevel = 6 ∨
       (EmergencyTriage.analyzeEmergency "swollen").painLevel = 9) := by
  decide

/-- C4 (amended): for every utterance classified as an emergency the pain
level is 9 when a severe keyword is contained, otherwise 6 when a moderate
keyword is contained, otherwise 3 when a mild keyword is contained, and
otherwise the default 5; in particular it always lies in {3, 5, 6, 9}. -/
theorem c4_amended_painLevel (u : String)
    (h : (EmergencyTriage.analyzeEmergency u).isEmergency = true) :
    ((EmergencyTriage.severeKeywords.any (fun w => containsSub w (toLowerStr u)) = true →
        (EmergencyTriage.analyzeEmergency u).painLevel = 9) ∧
     (EmergencyTriage.severeKeywords.any (fun w => containsSub w (toLowerStr u)) = false →
      EmergencyTriage.moderateKeywords.any (fun w => containsSub w (toLowerStr u)) = true →
        (EmergencyTriage.analyzeEmergency u).painLevel = 6) ∧
     (EmergencyTriage.severeKeywords.any (fun w => containsSub w (toLowerStr u)) = false →
      EmergencyTriage.moderateKeywords.any (fun w => containsSub w (toLowerStr u)) = false →
      EmergencyTriage.mildKeywords.any (fun w => containsSub w (toLowerStr u)) = true →
        (EmergencyTriage.analyzeEmergency u).painLevel = 3) ∧
     (EmergencyTriage.severeKeywords.any (fun w => containsSub w (toLowerStr u)) = false →
      EmergencyTriage.moderateKeywords.any (fun w => containsSub w (toLowerStr u)) = false →
      EmergencyTriage.mildKeywords.any (fun w => containsSub w (toLowerStr u)) = false →
        (EmergencyTriage.analyzeEmergency u).painLevel = 5)) ∧
    ((EmergencyTriage.analyzeEmergency u).painLevel = 3 ∨
     (EmergencyTriage.analyzeEmergency u).painLevel = 5 ∨
     (EmergencyTriage.analyzeEmergency u).painLevel = 6 ∨
     (EmergencyTriage.analyzeEmergency u).painLevel = 9) := by
  have hne : ¬ (EmergencyTriage.emergencyKeywords.filter
      (fun k => containsSub k (toLowerStr u))).length = 0 := by
    intro h0
    rw [analyzeEmergency_of_no_keyword u h0] at h
    exact Bool.false_ne_true h
  rw [analyzeEmergency_painLevel_eq u hne]
  by_cases hs : EmergencyTriage.severeKeywords.any (fun w => containsSub w (toLowerStr u)) <;>
    by_cases hm : EmergencyTriage.moderateKeywords.any (fun w => containsSub w (toLowerStr u)) <;>
    by_cases hl : EmergencyTriage.mildKeywords.any (fun w => containsSub w (toLowerStr u)) <;>
    simp [hs, hm, hl]

/-- C4 (witness): "unbearable pain" is an emergency and its pain level lies
in the amended set. -/
theorem c4_amended_painLevel_witness :
    (EmergencyTriage.analyzeEmergency "unbearable pain").isEmergency = true ∧
    ((EmergencyTriage.analyzeEmergency "unbearable pain").painLevel = 3 ∨
     (EmergencyTriage.analyzeEmergency "unbearable pain").painLevel = 5 ∨
     (EmergencyTriage.analyzeEmergency "unbearable pain").painLevel = 6 ∨
     (EmergencyTriage.analyzeEmergency "unbearable pain").painLevel = 9) :=
  ⟨by decide, (c4_amended_painLevel "unbearable pain" (by decide)).2⟩

/-- C1 (witness): "hello" contains no emergency keyword and the analysis
returns the all-zero record. -/
theorem c1_analyzeEmergency_keyword_iff_witness :
    (∀ k ∈ EmergencyTriage.emergencyKeywords, containsSub k (toLowerStr "hello") = false) ∧
    EmergencyTriage.analyzeEmergency "hello" =
      { isEmergency := false, painLevel := 0, symptoms := [], urgencyScore := 0 } :=
  ⟨by decide, (c1_analyzeEmergency_keyword_iff "hello").2 (by decide)⟩

/-- C5: the urgency score returned by `analyzeEmergency` always lies in
the interval [0, 100]. -/
theorem c5_urgencyScore_bounds (u : String) :
    0 ≤ (EmergencyTriage.analyzeEmergency u).urgencyScore ∧
    (EmergencyTriage.analyzeEmergency u).urgencyScore ≤ 100 := by
  refine ⟨Nat.zero_le _, ?_⟩
  by_cases h : (EmergencyTriage.emergencyKeywords.filter
      (fun k => containsSub k (toLowerStr u))).length = 0
  · rw [analyzeEmergency_of_no_keyword u h]
    exact Nat.zero_le 100
  · unfold EmergencyTriage.analyzeEmergency
    simp only [h, if_false]
    exact Nat.min_le_right _ _

/-! ## DentalService.scheduleRecall (src/src/services/dentalService.ts)
with the interval table from the dental config module. -/

namespace DentalService

/-- `recallSettings.intervals` from the dental config module. -/
def recallIntervals : List (String × Nat) :=
  [("cleaning", 6), ("perio", 3), ("implant", 12), ("crown", 12),
   ("filling", 24), ("surgery", 1), ("consultation", 12), ("periodontal", 3)]

/-- Table lookup used by `scheduleRecall` (JS object property access). -/
def lookupInterval (key : String) : Option Nat :=
  (recallIntervals.find? (fun kv => kv.1 == key)).map (fun kv => kv.2)

/-- The try-block of `DentalService.scheduleRecall`; `.error` models a
thrown exception. -/
def scheduleRecallBody (procedure : String) : Except String Nat :=
  if procedure.data.isEmpty then .error "Invalid procedure parameter"
  else
    let normalizedProcedure := trimStr (toLowerStr procedure)
    if normalizedProcedure.data.isEmpty then .error "Procedure cannot be empty"
    else
      match lookupInterval normalizedProcedure with
      | none => .ok 6
      | some interval =>
        if 0 < interval then .ok interval else .error "Invalid interval"

/-- Model of `DentalService.scheduleRecall`: the catch block turns every
thrown error into the safe default of 6 months, so the function is total. -/
def scheduleRecall (procedure : String) : Nat :=
  match scheduleRecallBody procedure with
  | .ok interval => interval
  | .error _ => 6

end DentalService

/-- Every interval stored in the configured table is positive. -/
lemma recallIntervals_pos :
    ∀ kv ∈ DentalService.recallIntervals, 0 < kv.2 := by decide

/-- If the normalized procedure is found in the table, its key is one of
the concrete table keys, hence nonempty. -/
lemma lookupInterval_some_nonempty (key : String) (i : Nat)
    (h : DentalService.lookupInterval key = some i) : key.data.isEmpty = false := by
  unfold DentalService.lookupInterval at h
  cases hf : DentalService.recallIntervals.find? (fun kv => kv.1 == key) with
  | none => rw [hf] at h; cases h
  | some kv =>
    have hkv := List.find?_some hf
    have hmem := List.mem_of_find?_eq_some hf
    have hkey : kv.1 = key := by simpa using hkv
    subst hkey
    fin_cases hmem <;> decide

/-- C7: `scheduleRecall` is total (the catch block absorbs every throw);
when the lowercased, trimmed procedure is a key of the interval table it
returns the configured interval, and otherwise it returns the default 6. -/
theorem c7_scheduleRecall_lookup_or_default (procedure : String) :
    (∀ i, DentalService.lookupInterval (trimStr (toLowerStr procedure)) = some i →
        DentalService.scheduleRecall procedure = i) ∧
    (DentalService.lookupInterval (trimStr (toLowerStr procedure)) = none →
        DentalService.scheduleRecall procedure = 6) := by
  constructor
  · intro i hi
    have hpos : 0 < i := by
      unfold DentalService.lookupInterval at hi
      cases hf : DentalService.recallIntervals.find?
          (fun kv => kv.1 == trimStr (toLowerStr procedure)) with
      | none => rw [hf] at hi; cases hi
      | some kv =>
        rw [hf] at hi
        have hmem := List.mem_of_find?_eq_some hf
        have : kv.2 = i := by simpa using hi
        subst this
        exact recallIntervals_pos kv hmem
    have hnorm : (trimStr (toLowerStr procedure)).data.isEmpty = false :=
      lookupInterval_some_nonempty _ _ hi
    have hproc : procedure.data.isEmpty = false := by
      cases procedure with
      | mk data =>
        cases data with
        | nil => simp [trimStr, toLowerStr] at hnorm
        | cons c cs => rfl
    unfold DentalService.scheduleRecall DentalService.scheduleRecallBody
    simp only [hproc, Bool.false_eq_true, if_false, hnorm, hi, hpos, if_true]
  · intro hnone
    by_cases hproc : procedure.data.isEmpty
    · unfold DentalService.scheduleRecall DentalService.scheduleRecallBody
      simp only [hproc, if_true]
    · by_cases hnorm : (trimStr (toLowerStr procedure)).data.isEmpty
      · unfold DentalService.scheduleRecall DentalService.scheduleRecallBody
        simp only [hproc, Bool.false_eq_true, if_false, hnorm, if_true]
      · unfold DentalService.scheduleRecall DentalService.scheduleRecallBody
        simp only [hproc, Bool.false_eq_true, if_false, hnorm, hnone]

/-- C7 (witness): " CROWN " normalizes to a configured key and yields 12;
"unknown-procedure" is not configured and yields the default 6. -/
theorem c7_scheduleRecall_lookup_or_default_witness :
    DentalService.scheduleRecall " CROWN " = 12 ∧
    DentalService.scheduleRecall "unknown-procedure" = 6 :=
  ⟨(c7_scheduleRecall_lookup_or_default " CROWN ").1 12 (by decide),
   (c7_scheduleRecall_lookup_or_default "unknown-procedure").2 (by decide)⟩

/-! ## RecallAutomator (src/src/services/recallAutomator.ts) -/

namespace RecallAutomator

/-- `RecallConfig` record from recallAutomator.ts. -/
structure RecallConfig where
  interval : Nat
  autoBook : Bool
  reminderDays : List Nat
  priority : String
deriving DecidableEq

/-- `RecallAutomator.recallConfigs` (the private static table). -/
def recallConfigs : List (String × RecallConfig) :=
  [("cleaning", ⟨6, true, [30, 14, 7, 1], "medium"⟩),
   ("crown", ⟨12, false, [60, 30, 14], "low"⟩),
   ("implant", ⟨24, true, [90, 60, 30, 14], "high"⟩),
   ("periodontal", ⟨3, true, [14, 7, 3, 1], "high"⟩),
   ("filling", ⟨24, false, [60, 30, 14], "low"⟩),
   ("extraction", ⟨1, true, [7, 3, 1], "high"⟩)]

/-- Model of `RecallAutomator.getRecallConfig` with its fallback record. -/
def getRecallConfig (procedure : String) : RecallConfig :=
  match (recallConfigs.find? (fun kv => kv.1 == procedure)).map (fun kv => kv.2) with
  | some config => config
  | none => ⟨6, false, [30, 14, 7], "medium"⟩

/-- Calendar date (month is the 1-based calendar month). -/
structure DateYMD where
  year : Nat
  month : Nat
  day : Nat
deriving DecidableEq

def isLeapYear (y : Nat) : Bool := (y % 4 == 0 && y % 100 != 0) || y % 400 == 0

def daysInMonth (y m : Nat) : Nat :=
  if m = 2 then (if isLeapYear y then 29 else 28)
  else if m = 4 ∨ m = 6 ∨ m = 9 ∨ m = 11 then 30 else 31

/-- Model of JS `date.setMonth(date.getMonth() + k)` on a calendar date:
the month index overflows into the year, and a day-of-month larger than
the target month rolls into the following month (one carry suffices since
the day-of-month is at most 31 and every month has at least 28 days). -/
def addMonths (d : DateYMD) (k : Nat) : DateYMD :=
  let idx := (d.month - 1) + k
  let y := d.year + idx / 12
  let m := idx % 12 + 1
  if daysInMonth y m < d.day then
    if m = 12 then ⟨y + 1, 1, d.day - daysInMonth y m⟩
    else ⟨y, m + 1, d.day - daysInMonth y m⟩
  else ⟨y, m, d.day⟩

/-- The `nextDue` computation inside `RecallAutomator.addPatientRecall`:
last visit plus the configured interval in months. -/
def addPatientRecallNextDue (procedure : String) (lastVisit : DateYMD) : DateYMD :=
  addMonths lastVisit (getRecallConfig procedure).interval

end RecallAutomator

/-- C6: a recall added for procedure "cleaning" with last visit 2024-02-15
is next due on 2024-08-15 (the configured 6-month cleaning interval). -/
theorem c6_cleaning_recall_nextDue :
    RecallAutomator.addPatientRecallNextDue "cleaning" ⟨2024, 2, 15⟩ = ⟨2024, 8, 15⟩ := by
  decide

/-! ## useVapi reconnection policy (src/hooks/useVapi.ts) -/

namespace UseVapi

/-- `maxReconnectAttempts` constant of the `useVapi` hook. -/
def maxReconnectAttempts : Nat := 3

/-- Model of the retry decision inside the `vapi.on` error handler: given
whether the error is retryable, whether a call is active, and the current
reconnect-attempt counter, it either schedules the next attempt together
with its `setTimeout` delay in milliseconds, or schedules nothing. -/
def vapiErrorRetry (shouldRetry isCallActive : Bool) (attempts : Nat) :
    Option (Nat × Nat) :=
  if shouldRetry && decide (attempts < maxReconnectAttempts) && isCallActive then
    some (attempts + 1, 2000 * (attempts + 1))
  else none

end UseVapi

/-- C8: whenever the error handler schedules a reconnection it is attempt
n ≤ 3 with a delay of 2000·n milliseconds (linear backoff), and once the
counter has reached 3 no further retry is scheduled. -/
theorem c8_vapi_retry_policy (shouldRetry isCallActive : Bool) (attempts : Nat) :
    (∀ n d, UseVapi.vapiErrorRetry shouldRetry isCallActive attempts = some (n, d) →
        n ≤ UseVapi.maxReconnectAttempts ∧ d = 2000 * n) ∧
    (UseVapi.maxReconnectAttempts ≤ attempts →
        UseVapi.vapiErrorRetry shouldRetry isCallActive attempts = none) := by
  constructor
  · intro n d h
    unfold UseVapi.vapiErrorRetry at h
    split at h
    · rename_i hc
      simp only [Bool.and_eq_true, decide_eq_true_eq] at hc
      obtain ⟨⟨-, hlt⟩, -⟩ := hc
      cases h
      exact ⟨by omega, rfl⟩
    · cases h
  · intro hge
    unfold UseVapi.vapiErrorRetry
    split
    · rename_i hc
      simp only [Bool.and_eq_true, decide_eq_true_eq] at hc
      omega
    · rfl

/-- C8 (witness): at counter 0 a retryable error schedules attempt 1 after
2000 ms, and at counter 3 nothing is scheduled. -/
theorem c8_vapi_retry_policy_witness :
    (1 ≤ UseVapi.maxReconnectAttempts ∧ 2000 = 2000 * 1) ∧
    UseVapi.vapiErrorRetry true true 3 = none :=
  ⟨(c8_vapi_retry_policy true true 0).1 1 2000 (by decide),
   (c8_vapi_retry_policy true true 3).2 (by decide)⟩

/-! ## NoShowDefender (src/src/services/noShowDefender.ts) -/

namespace NoShowDefender

/-- Priority tier of a waitlist entry. -/
inductive WPriority
  | emergency
  | new_patient
  | regular
deriving DecidableEq

/-- `WaitlistPatient` record; `addedAt` is `Date.getTime()` in epoch
milliseconds, the only use the code makes of the date. -/
structure WaitlistPatient where
  id : String
  name : String
  phone : String
  preferredTimes : List String
  priority : WPriority
  addedAt : Int
deriving DecidableEq

/-- The `priorityOrder` object inside the sort comparator. -/
def priorityOrder : WPriority → Nat
  | .emergency => 0
  | .new_patient => 1
  | .regular => 2

/-- The JS sort comparator, as the boolean relation "compare(a, b) ≤ 0":
priority difference first, then `addedAt` difference. -/
def wlLe (a b : WaitlistPatient) : Bool :=
  if priorityOrder a.priority = priorityOrder b.priority
  then decide (a.addedAt ≤ b.addedAt)
  else decide (priorityOrder a.priority < priorityOrder b.priority)

/-- Propositional form of `wlLe` used by the sort. -/
def wlR (a b : WaitlistPatient) : Prop := wlLe a b = true

instance : DecidableRel wlR := fun a b => inferInstanceAs (Decidable (wlLe a b = true))

/-- Model of `this.waitlist.sort(comparator)` (ES2019 `Array.prototype.sort`
is stable; insertion sort with a non-strict total comparator is the same
stable sort). -/
def sortWaitlist (waitlist : List WaitlistPatient) : List WaitlistPatient :=
  List.insertionSort wlR waitlist

/-- Eligibility test inside the fill loop: some preferred time occurs as a
substring of the lowercased slot description. -/
def patientAvailable (appointmentSlot : String) (patient : WaitlistPatient) : Bool :=
  patient.preferredTimes.any (fun time => containsSub time (toLowerStr appointmentSlot))

/-- Result record of `handleCancellation` (the `patient` field is optional). -/
structure FillResult where
  filled : Bool
  patient : Option WaitlistPatient
  revenueRecovered : Nat
deriving DecidableEq

/-- `slotValues` inside `calculateRevenueRecovered`. -/
def slotValues : List (String × Nat) :=
  [("morning", 380), ("afternoon", 420), ("evening", 350), ("emergency", 580)]

/-- Model of `NoShowDefender.calculateRevenueRecovered`. -/
def calculateRevenueRecovered (slot : String) : Nat :=
  match slotValues.find? (fun kv => containsSub kv.1 (toLowerStr slot)) with
  | some kv => kv.2
  | none => 400

/-- The part of the static config that `handleCancellation` reads. -/
structure Config where
  autoFill : Bool
deriving DecidableEq

/-- Model of `NoShowDefender.handleCancellation`: returns the result record
together with the waitlist left behind (the in-place `sort` makes the
no-fill branch leave the sorted array in `this.waitlist`). -/
def handleCancellation (config : Config) (waitlist : List WaitlistPatient)
    (appointmentSlot : String) : FillResult × List WaitlistPatient :=
  if !config.autoFill then (⟨false, none, 0⟩, waitlist)
  else
    let sortedWaitlist := sortWaitlist waitlist
    match sortedWaitlist.find? (patientAvailable appointmentSlot) with
    | some patient =>
      (⟨true, some patient, calculateRevenueRecovered appointmentSlot⟩,
       sortedWaitlist.filter (fun p => p.id != patient.id))
    | none => (⟨false, none, 0⟩, sortedWaitlist)

end NoShowDefender

/-- The comparator relation is total. -/
lemma wlLe_total (a b : NoShowDefender.WaitlistPatient) :
    NoShowDefender.wlLe a b = true ∨ NoShowDefender.wlLe b a = true := by
  unfold NoShowDefender.wlLe
  split_ifs <;> simp only [decide_eq_true_eq] <;> omega

/-- The comparator relation is transitive. -/
lemma wlLe_trans (a b c : NoShowDefender.WaitlistPatient)
    (hab : NoShowDefender.wlLe a b = true) (hbc : NoShowDefender.wlLe b c = true) :
    NoShowDefender.wlLe a c = true := by
  unfold NoShowDefender.wlLe at hab hbc ⊢
  split_ifs at hab hbc ⊢ <;> simp_all <;> omega

instance : IsTotal NoShowDefender.WaitlistPatient NoShowDefender.wlR :=
  ⟨fun a b => wlLe_total a b⟩

instance : IsTrans NoShowDefender.WaitlistPatient NoShowDefender.wlR :=
  ⟨fun a b c => wlLe_trans a b c⟩

/-- Unpacking the comparator: `wlLe a b` means `a`'s tier is at least as
high (numerically at most `b`'s), with `addedAt` breaking ties. -/
lemma wlLe_dest (a b : NoShowDefender.WaitlistPatient)
    (h : NoShowDefender.wlLe a b = true) :
    NoShowDefender.priorityOrder a.priority ≤ NoShowDefender.priorityOrder b.priority ∧
    (NoShowDefender.priorityOrder a.priority = NoShowDefender.priorityOrder b.priority →
      a.addedAt ≤ b.addedAt) := by
  unfold NoShowDefender.wlLe at h
  split_ifs at h with heq
  · simp only [decide_eq_true_eq] at h
    exact ⟨le_of_eq heq, fun _ => h⟩
  · simp only [decide_eq_true_eq] at h
    exact ⟨le_of_lt h, fun he => absurd he heq⟩

/-- In a list sorted for the comparator, `find?` returns an element that is
comparator-below every later element satisfying the predicate. -/
lemma find?_sorted_min (pred : NoShowDefender.WaitlistPatient → Bool) :
    ∀ (l : List NoShowDefender.WaitlistPatient) (p : NoShowDefender.WaitlistPatient),
      List.Pairwise NoShowDefender.wlR l → l.find? pred = some p →
      ∀ q ∈ l, pred q = true → p = q ∨ NoShowDefender.wlLe p q = true := by
  intro l
  induction l with
  | nil => intro p _ hfind; cases hfind
  | cons a l ih =>
    intro p hsort hfind q hq hpred
    by_cases ha : pred a = true
    · rw [List.find?_cons_of_pos _ ha] at hfind
      injection hfind with h
      subst h
      rcases List.mem_cons.mp hq with rfl | hql
      · exact Or.inl rfl
      · exact Or.inr ((List.pairwise_cons.mp hsort).1 q hql)
    · rw [List.find?_cons_of_neg _ (by simpa using ha)] at hfind
      rcases List.mem_cons.mp hq with rfl | hql
      · exact absurd hpred ha
      · exact ih p (List.pairwise_cons.mp hsort).2 hfind q hql hpred

/-- Characterization of the returned patient. -/
lemma handleCancellation_patient_eq (config : NoShowDefender.Config)
    (wl : List NoShowDefender.WaitlistPatient) (slot : String)
    (p : NoShowDefender.WaitlistPatient) :
    (NoShowDefender.handleCancellation config wl slot).1.patient = some p ↔
    (config.autoFill = true ∧
      (NoShowDefender.sortWaitlist wl).find?
        (NoShowDefender.patientAvailable slot) = some p) := by
  unfold NoShowDefender.handleCancellation
  by_cases hc : config.autoFill <;>
    cases hf : (NoShowDefender.sortWaitlist wl).find?
      (NoShowDefender.patientAvailable slot) <;>
    simp [hc, hf]

/-- C3: whenever `handleCancellation` fills the slot, the returned patient
is an eligible entry of the waitlist whose priority tier is maximal among
all eligible entries and, within that tier, whose `addedAt` is earliest. -/
theorem c3_handleCancellation_picks_best (config : NoShowDefender.Config)
    (waitlist : List NoShowDefender.WaitlistPatient) (slot : String)
    (p : NoShowDefender.WaitlistPatient)
    (hp : (NoShowDefender.handleCancellation config waitlist slot).1.patient = some p) :
    p ∈ waitlist ∧ NoShowDefender.patientAvailable slot p = true ∧
    ∀ q ∈ waitlist, NoShowDefender.patientAvailable slot q = true →
      NoShowDefender.priorityOrder p.priority ≤ NoShowDefender.priorityOrder q.priority ∧
      (NoShowDefender.priorityOrder p.priority = NoShowDefender.priorityOrder q.priority →
        p.addedAt ≤ q.addedAt) := by
  obtain ⟨hc, hf⟩ := (handleCancellation_patient_eq config waitlist slot p).mp hp
  have hperm : List.Perm (NoShowDefender.sortWaitlist waitlist) waitlist :=
    List.perm_insertionSort NoShowDefender.wlR waitlist
  have hsort : List.Pairwise NoShowDefender.wlR (NoShowDefender.sortWaitlist waitlist) :=
    List.sorted_insertionSort NoShowDefender.wlR waitlist
  have hmem : p ∈ NoShowDefender.sortWaitlist waitlist := List.mem_of_find?_eq_some hf
  have hpred : NoShowDefender.patientAvailable slot p = true := List.find?_some hf
  refine ⟨hperm.mem_iff.mp hmem, hpred, ?_⟩
  intro q hq hqa
  have hq' : q ∈ NoShowDefender.sortWaitlist waitlist := hperm.mem_iff.mpr hq
  rcases find?_sorted_min _ _ _ hsort hf q hq' hqa with rfl | hle
  · exact ⟨le_refl _, fun _ => le_refl _⟩
  · exact wlLe_dest p q hle

/-- C3 (witness): with an eligible emergency entry and an eligible earlier
regular entry, the emergency entry is picked and dominates both entries. -/
theorem c3_handleCancellation_picks_best_witness :
    (⟨"1", "A", "555-0001", ["morning"], .emergency, 100⟩ :
        NoShowDefender.WaitlistPatient) ∈
      [(⟨"2", "B", "555-0002", ["morning"], .regular, 0⟩ :
          NoShowDefender.WaitlistPatient),
       ⟨"1", "A", "555-0001", ["morning"], .emergency, 100⟩] ∧
    NoShowDefender.patientAvailable "Tomorrow Morning"
      ⟨"1", "A", "555-0001", ["morning"], .emergency, 100⟩ = true ∧
    ∀ q ∈ [(⟨"2", "B", "555-0002", ["morning"], .regular, 0⟩ :
          NoShowDefender.WaitlistPatient),
       ⟨"1", "A", "555-0001", ["morning"], .emergency, 100⟩],
      NoShowDefender.patientAvailable "Tomorrow Morning" q = true →
      NoShowDefender.priorityOrder
          (⟨"1", "A", "555-0001", ["morning"], .emergency, 100⟩ :
            NoShowDefender.WaitlistPatient).priority ≤
        NoShowDefender.priorityOrder q.priority ∧
      (NoShowDefender.priorityOrder
          (⟨"1", "A", "555-0001", ["morning"], .emergency, 100⟩ :
            NoShowDefender.WaitlistPatient).priority =
        NoShowDefender.priorityOrder q.priority →
        (100 : Int) ≤ q.addedAt) :=
  c3_handleCancellation_picks_best ⟨true⟩
    [⟨"2", "B", "555-0002", ["morning"], .regular, 0⟩,
     ⟨"1", "A", "555-0001", ["morning"], .emergency, 100⟩]
    "Tomorrow Morning" ⟨"1", "A", "555-0001", ["morning"], .emergency, 100⟩
    (by decide)

/-- C9 (counterexample): with two eligible waitlist entries that share an
id, filling the slot removes both of them — not only the returned one. -/
theorem c9_frame_counterexample :
    (NoShowDefender.handleCancellation ⟨true⟩
        [⟨"1", "A", "555-0001", ["morning"], .emergency, 0⟩,
         ⟨"1", "B", "555-0002", ["morning"], .regular, 0⟩] "morning").1.patient =
      some ⟨"1", "A", "555-0001", ["morning"], .emergency, 0⟩ ∧
    (⟨"1", "B", "555-0002", ["morning"], .regular, 0⟩ :
        NoShowDefender.WaitlistPatient) ≠
      ⟨"1", "A", "555-0001", ["morning"], .emergency, 0⟩ ∧
    (NoShowDefender.handleCancellation ⟨true⟩
        [⟨"1", "A", "555-0001", ["morning"], .emergency, 0⟩,
         ⟨"1", "B", "555-0002", ["morning"], .regular, 0⟩] "morning").2 = [] := by
  decide

/-- C9 (amended): `handleCancellation` only reorders or filters the
waitlist: when no slot is filled the multiset of entries is unchanged, and
when a patient is returned the remaining waitlist consists exactly of the
entries whose id differs from the returned patient's id (so with pairwise
distinct ids exactly the returned entry is removed). -/
theorem c9_amended_frame (config : NoShowDefender.Config)
    (waitlist : List NoShowDefender.WaitlistPatient) (slot : String) :
    ((NoShowDefender.handleCancellation config waitlist slot).1.filled = false →
      List.Perm (NoShowDefender.handleCancellation config waitlist slot).2 waitlist) ∧
    (∀ p, (NoShowDefender.handleCancellation config waitlist slot).1.patient = some p →
      List.Perm (NoShowDefender.handleCancellation config waitlist slot).2
        (waitlist.filter (fun q => q.id != p.id))) := by
  have hperm : List.Perm (NoShowDefender.sortWaitlist waitlist) waitlist :=
    List.perm_insertionSort NoShowDefender.wlR waitlist
  unfold NoShowDefender.handleCancellation
  by_cases hc : config.autoFill
  · cases hf : (NoShowDefender.sortWaitlist waitlist).find?
        (NoShowDefender.patientAvailable slot) with
    | none =>
      constructor
      · intro _
        simpa [hc, hf] using hperm
      · intro p hp
        simp [hc, hf] at hp
    | some r =>
      constructor
      · intro hfill
        simp [hc, hf] at hfill
      · intro p hp
        simp only [hc, hf] at hp ⊢
        have hrp : r = p := by simpa using hp
        subst hrp
        simpa using hperm.filter (fun q => q.id != r.id)
  · have hcf : config.autoFill = false := by simpa using hc
    constructor
    · intro _
      simp [hcf]
    · intro p hp
      simp [hcf] at hp

/-- C9 (witness): with a single eligible entry the fill leaves an empty
waitlist, the filter of the original list by the returned id. -/
theorem c9_amended_frame_witness :
    List.Perm
      (NoShowDefender.handleCancellation ⟨true⟩
        [⟨"7", "C", "555-0007", ["afternoon"], .regular, 5⟩] "afternoon visit").2
      ([(⟨"7", "C", "555-0007", ["afternoon"], .regular, 5⟩ :
          NoShowDefender.WaitlistPatient)].filter (fun q => q.id != "7")) :=
  (c9_amended_frame ⟨true⟩
      [⟨"7", "C", "555-0007", ["afternoon"], .regular, 5⟩] "afternoon visit").2
    ⟨"7", "C", "555-0007", ["afternoon"], .regular, 5⟩ (by decide)

/-! ## HIPAAShield (PHI redaction, src/unnamed/part_006)

The redaction rules are JavaScript regular expressions used with the
global `g` flag through `String.prototype.match` (counting) and
`String.prototype.replace` (substitution).  They are embedded as a small
backtracking matcher over character lists: character classes, sequencing,
prioritized alternation (JS backtracking order, so quantifiers encoded
through `alt` are greedy) and the zero-width word-boundary assertion.
Unbounded quantifiers (`+`, `{2,}`) are bounded by the input length, which
loses nothing since no match can be longer than the input. -/

/-- Regular-expression syntax used by the redaction rules. -/
inductive RE where
  | eps : RE
  | cls : (Char → Bool) → RE
  | seq : RE → RE → RE
  | alt : RE → RE → RE
  | wb : RE

/-- JS word character `[A-Za-z0-9_]` (the `\b` alphabet). -/
def isWordChar (c : Char) : Bool :=
  ('a' ≤ c && c ≤ 'z') || ('A' ≤ c && c ≤ 'Z') || ('0' ≤ c && c ≤ '9') || c == '_'

def isWordOpt : Option Char → Bool
  | none => false
  | some c => isWordChar c

/-- The `\b` assertion holds between the previous character (`none` at the
start of the input) and the next character (`none` at the end). -/
def atBoundary (prev : Option Char) (s : List Char) : Bool :=
  isWordOpt prev != isWordOpt s.head?

/-- Backtracking matcher in continuation style: tries every parse of `r`
on a prefix of `s` in JS preference order, handing the previous character
and the rest of the input to the continuation. -/
def matchRE : RE → Option Char → List Char → (Option Char → List Char → Option (List Char)) →
    Option (List Char)
  | .eps, prev, s, k => k prev s
  | .cls p, _, s, k =>
    match s with
    | [] => none
    | c :: rest => if p c then k (some c) rest else none
  | .seq r1 r2, prev, s, k => matchRE r1 prev s (fun p2 s2 => matchRE r2 p2 s2 k)
  | .alt r1 r2, prev, s, k =>
    match matchRE r1 prev s k with
    | some res => some res
    | none => matchRE r2 prev s k
  | .wb, prev, s, k => if atBoundary prev s then k prev s else none

/-- Greedy `r?`. -/
def optRE (r : RE) : RE := .alt r .eps

/-- `r{n}`. -/
def rptExact (r : RE) : Nat → RE
  | 0 => .eps
  | n + 1 => .seq r (rptExact r n)

/-- Greedy `r{0,n}`. -/
def rptUpTo (r : RE) : Nat → RE
  | 0 => .eps
  | n + 1 => .alt (.seq r (rptUpTo r n)) .eps

/-- Greedy `r{lo,lo+n}`; with `n` the input length this is `r{lo,}`. -/
def rptAtLeast (r : RE) (lo n : Nat) : RE := .seq (rptExact r lo) (rptUpTo r n)

/-- Right-nested sequencing of a pattern list. -/
def seqAll : List RE → RE
  | [] => .eps
  | [r] => r
  | r :: rs => .seq r (seqAll rs)

/-- First match of `r` at the head of `s` (given previous character
`prev`): the consumed characters and the leftover suffix.  A zero-width
match is treated as no match; every redaction pattern consumes at least
one character, so this case never arises for them. -/
def tryMatchAt (r : RE) (prev : Option Char) (s : List Char) :
    Option (List Char × List Char) :=
  match matchRE r prev s (fun _ rest => some rest) with
  | none => none
  | some rest =>
    let n := s.length - rest.length
    if n = 0 then none else some (s.take n, rest)

/-- Scan of `String.prototype.match`/`replace` with the `g` flag: walk the
input left to right, emitting matched segments (tagged `true`) and
unmatched characters (tagged `false`); after a match the scan resumes past
it.  `fuel` bounds the recursion; `s.length` steps always suffice. -/
def scanPieces : Nat → RE → Option Char → List Char → List (Bool × List Char)
  | 0, _, _, s => if s.isEmpty then [] else [(false, s)]
  | _ + 1, _, _, [] => []
  | fuel + 1, r, prev, c :: rest =>
    match tryMatchAt r prev (c :: rest) with
    | some (m, leftover) => (true, m) :: scanPieces fuel r m.getLast? leftover
    | none => (false, [c]) :: scanPieces fuel r (some c) rest

/-- Number of matches of `r` in `s` (length of `s.match(r)` under `g`). -/
def countMatchesIn (r : RE) (s : List Char) : Nat :=
  (scanPieces s.length r none s).countP (fun piece => piece.1)

/-- `s.replace(r, repl)` under the `g` flag. -/
def replaceIn (r : RE) (repl : List Char) (s : List Char) : List Char :=
  (scanPieces s.length r none s).foldr
    (fun piece acc => (if piece.1 then repl else piece.2) ++ acc) []

namespace HIPAAShield

def isDigitCh (c : Char) : Bool := '0' ≤ c && c ≤ '9'
def isUpperCh (c : Char) : Bool := 'A' ≤ c && c ≤ 'Z'
def isLowerCh (c : Char) : Bool := 'a' ≤ c && c ≤ 'z'
def isAlphaNumCh (c : Char) : Bool := isUpperCh c || isLowerCh c || isDigitCh c

/-- JS `\s` (whitespace class). -/
def isJsSpace (c : Char) : Bool :=
  c == ' ' || c == '\t' || c == '\n' || c == '\r' ||
  c.toNat == 11 || c.toNat == 12 || c.toNat == 160 || c.toNat == 5760 ||
  (8192 ≤ c.toNat && c.toNat ≤ 8202) || c.toNat == 8232 || c.toNat == 8233 ||
  c.toNat == 8239 || c.toNat == 8287 || c.toNat == 12288 || c.toNat == 65279

def chRE (c : Char) : RE := .cls (fun x => x == c)

/-- Case-insensitive single character (for the `/i` MRN rules). -/
def chCI (c₁ c₂ : Char) : RE := .cls (fun x => x == c₁ || x == c₂)

def digitRE : RE := .cls isDigitCh

/-- `\b\d{3}-\d{2}-\d{4}\b`. -/
def ssnRE1 : RE :=
  seqAll [.wb, rptExact digitRE 3, chRE '-', rptExact digitRE 2, chRE '-',
          rptExact digitRE 4, .wb]

/-- `\b\d{9}\b`. -/
def ssnRE2 : RE := seqAll [.wb, rptExact digitRE 9, .wb]

/-- `\b[A-Z]{2}\d{10}\b`. -/
def insRE1 : RE :=
  seqAll [.wb, rptExact (RE.cls isUpperCh) 2, rptExact digitRE 10, .wb]

/-- `\b[A-Z]{3}\d{9}\b`. -/
def insRE2 : RE :=
  seqAll [.wb, rptExact (RE.cls isUpperCh) 3, rptExact digitRE 9, .wb]

/-- `\b\d{3}-\d{3}-\d{4}\b`. -/
def phoneRE1 : RE :=
  seqAll [.wb, rptExact digitRE 3, chRE '-', rptExact digitRE 3, chRE '-',
          rptExact digitRE 4, .wb]

/-- `\b\(\d{3}\)\s?\d{3}-\d{4}\b`. -/
def phoneRE2 : RE :=
  seqAll [.wb, chRE '(', rptExact digitRE 3, chRE ')', optRE (RE.cls isJsSpace),
          rptExact digitRE 3, chRE '-', rptExact digitRE 4, .wb]

/-- `[\s-]?`. -/
def cardSepRE : RE := optRE (.cls (fun c => isJsSpace c || c == '-'))

/-- `\b\d{4}[\s-]?\d{4}[\s-]?\d{4}[\s-]?\d{4}\b`. -/
def cardRE : RE :=
  seqAll [.wb, rptExact digitRE 4, cardSepRE, rptExact digitRE 4, cardSepRE,
          rptExact digitRE 4, cardSepRE, rptExact digitRE 4, .wb]

def emailLocalCh (c : Char) : Bool :=
  isAlphaNumCh c || c == '.' || c == '_' || c == '%' || c == '+' || c == '-'

def emailDomainCh (c : Char) : Bool := isAlphaNumCh c || c == '.' || c == '-'

/-- `[A-Z|a-z]` (the class literally includes the pipe character). -/
def emailTldCh (c : Char) : Bool := isUpperCh c || c == '|' || isLowerCh c

/-- `\b[A-Za-z0-9._%+-]+@[A-Za-z0-9.-]+\.[A-Z|a-z]{2,}\b` (`n` bounds the
unbounded quantifiers by the input length). -/
def emailRE (n : Nat) : RE :=
  seqAll [.wb, rptAtLeast (.cls emailLocalCh) 1 n, chRE '@',
          rptAtLeast (.cls emailDomainCh) 1 n, chRE '.',
          rptAtLeast (.cls emailTldCh) 2 n, .wb]

/-- `\b\d{1,2}SEP\d{1,2}SEP\d{4}\b` for the two DOB rules (`/` and `-`). -/
def dobRE (sep : Char) : RE :=
  seqAll [.wb, rptAtLeast digitRE 1 1, chRE sep, rptAtLeast digitRE 1 1,
          chRE sep, rptExact digitRE 4, .wb]

/-- `[\s:]?`. -/
def mrnSepRE : RE := optRE (.cls (fun c => isJsSpace c || c == ':'))

/-- `\bMRN[\s:]?\d+` with the `i` flag. -/
def mrnRE (n : Nat) : RE :=
  seqAll [.wb, chCI 'M' 'm', chCI 'R' 'r', chCI 'N' 'n', mrnSepRE,
          rptAtLeast digitRE 1 n]

/-- `\bMR[\s:]?\d+` with the `i` flag. -/
def mrRE (n : Nat) : RE :=
  seqAll [.wb, chCI 'M' 'm', chCI 'R' 'r', mrnSepRE, rptAtLeast digitRE 1 n]

/-- One entry of `HIPAAShield.redactionRules`: the pattern (parameterized
by the input-length bound for unbounded quantifiers) and the replacement. -/
structure RedactionRule where
  re : Nat → RE
  replace : String

/-- `HIPAAShield.redactionRules`, in source order. -/
def redactionRules : List RedactionRule :=
  [⟨fun _ => ssnRE1, "[SSN-REDACTED]"⟩,
   ⟨fun _ => ssnRE2, "[SSN-REDACTED]"⟩,
   ⟨fun _ => insRE1, "[INSURANCE-REDACTED]"⟩,
   ⟨fun _ => insRE2, "[INSURANCE-REDACTED]"⟩,
   ⟨fun _ => phoneRE1, "[PHONE-REDACTED]"⟩,
   ⟨fun _ => phoneRE2, "[PHONE-REDACTED]"⟩,
   ⟨fun _ => cardRE, "[CARD-REDACTED]"⟩,
   ⟨emailRE, "[EMAIL-REDACTED]"⟩,
   ⟨fun _ => dobRE '/', "[DOB-REDACTED]"⟩,
   ⟨fun _ => dobRE '-', "[DOB-REDACTED]"⟩,
   ⟨mrnRE, "[MRN-REDACTED]"⟩,
   ⟨mrRE, "[MRN-REDACTED]"⟩]

/-- The data-type classification `redactPHI` derives from the replacement
token (the if/else chain over `rule.replace.includes(...)`). -/
def dataTypeOf (replace : String) : String :=
  if containsSub "SSN" replace then "ssn"
  else if containsSub "INSURANCE" replace then "insurance"
  else if containsSub "PHONE" replace then "phone"
  else if containsSub "CARD" replace then "credit_card"
  else if containsSub "EMAIL" replace then "email"
  else if containsSub "DOB" replace then "date_of_birth"
  else if containsSub "MRN" replace then "medical_record"
  else "unknown"

/-- Result record of `HIPAAShield.redactPHI`. -/
structure RedactionResult where
  redactedText : String
  redactionCount : Nat
  dataTypesFound : List String
deriving DecidableEq

/-- One iteration of the `redactionRules.forEach` loop.  Note the source
quirk: matches are counted against the ORIGINAL text, while the
substitution is applied to the running redacted text, and both are guarded
by the original text having a match. -/
def redactStep (text : List Char) (acc : RedactionResult) (rule : RedactionRule) :
    RedactionResult :=
  let matchCount := countMatchesIn (rule.re text.length) text
  if 0 < matchCount then
    let dataType := dataTypeOf rule.replace
    { redactedText :=
        ⟨replaceIn (rule.re acc.redactedText.data.length) rule.replace.data
          acc.redactedText.data⟩,
      redactionCount := acc.redactionCount + matchCount,
      dataTypesFound :=
        if acc.dataTypesFound.contains dataType then acc.dataTypesFound
        else acc.dataTypesFound ++ [dataType] }
  else acc

/-- Model of `HIPAAShield.redactPHI`. -/
def redactPHI (text : String) : RedactionResult :=
  redactionRules.foldl (redactStep text.data)
    { redactedText := text, redactionCount := 0, dataTypesFound := [] }

end HIPAAShield

/-- C2: redacting "call 555-123-4567" yields a text containing the literal
token "[PHONE-REDACTED]" and no longer containing "555-123-4567". -/
theorem c2_redactPHI_phone_concrete :
    containsSub "[PHONE-REDACTED]"
      (HIPAAShield.redactPHI "call 555-123-4567").redactedText = true ∧
    containsSub "555-123-4567"
      (HIPAAShield.redactPHI "call 555-123-4567").redactedText = false := by
  decide

/-- When no rule matches the original text, the `forEach` loop leaves the
accumulator untouched. -/
lemma redact_foldl_no_match (cs : List Char) :
    ∀ (rules : List HIPAAShield.RedactionRule) (acc : HIPAAShield.RedactionResult),
      (∀ rule ∈ rules, countMatchesIn (rule.re cs.length) cs = 0) →
      rules.foldl (HIPAAShield.redactStep cs) acc = acc := by
  intro rules
  induction rules with
  | nil => intro acc _; rfl
  | cons r rs ih =>
    intro acc h
    rw [List.foldl_cons]
    have h0 : countMatchesIn (r.re cs.length) cs = 0 := h r (List.mem_cons_self r rs)
    have hstep : HIPAAShield.redactStep cs acc r = acc := by
      unfold HIPAAShield.redactStep
      simp [h0]
    rw [hstep]
    exact ih acc (fun rule hr => h rule (List.mem_cons_of_mem r hr))

/-- C10: on an input in which none of the redaction patterns has a match,
`redactPHI` is the identity: it returns the input text with a redaction
count of 0 and no data types found. -/
theorem c10_redactPHI_identity_when_no_match (text : String)
    (h : ∀ rule ∈ HIPAAShield.redactionRules,
      countMatchesIn (rule.re text.data.length) text.data = 0) :
    HIPAAShield.redactPHI text =
      { redactedText := text, redactionCount := 0, dataTypesFound := [] } := by
  unfold HIPAAShield.redactPHI
  exact redact_foldl_no_match text.data HIPAAShield.redactionRules _ h

/-- C10 (witness): "hello world" matches no rule and is returned intact. -/
theorem c10_redactPHI_identity_when_no_match_witness :
    (∀ rule ∈ HIPAAShield.redactionRules,
      countMatchesIn (rule.re "hello world".data.length) "hello world".data = 0) ∧
    HIPAAShield.redactPHI "hello world" =
      { redactedText := "hello world", redactionCount := 0, dataTypesFound := [] } :=
  ⟨by decide, c10_redactPHI_identity_when_no_match "hello world" (by decide)⟩
